import Mathlib

/-!
Shallow embedding of the core components of the `linkedin-automation`
repository (Go): the timing model, the motion synthesizer, the typing
simulator, the rate governor and the action pipeline, together with
theorems settling the specification's claims about them.

Go `time.Duration` values are modelled as integers counting nanoseconds.
Calls to the process-global random generator `rng` are modelled by explicit
oracle parameters: a call `rng.Int63n(n)` becomes an integer parameter
constrained to `[0, n)` in the theorems, a call `rng.Float64()` becomes a
real parameter, and per-position probabilistic branches become `Nat → Bool`
oracles.
-/

namespace LinkedIn

/-- One nanosecond-denominated millisecond, as in Go's `time.Millisecond`. -/
def Millisecond : ℤ := 1000000

/-- One second in nanoseconds, as in Go's `time.Second`. -/
def Second : ℤ := 1000000000

/-- One minute in nanoseconds, as in Go's `time.Minute`. -/
def Minute : ℤ := 60 * Second

namespace Stealth

/-- Embedding of `RandomDelay(min, max time.Duration) time.Duration` from
`internal/stealth/stealth.go` (lines 152-158).  The Go body is:
`if min >= max { return min }; delta := max - min;
return min + time.Duration(rng.Int63n(int64(delta)))`.
The random draw `rng.Int63n(delta)` is modelled by the parameter `r`,
which theorems constrain to `0 ≤ r < delta` (the contract of `Int63n`). -/
def RandomDelay (min max r : ℤ) : ℤ :=
  if min ≥ max then min else min + r

/-- Embedding of the local `baseCooldown` computation of
`GetCooldownDuration` from `internal/stealth/stealth.go` (lines 679-688):
2 minutes by default, 5 minutes when more than 15 actions happened this
hour, 3 minutes when more than 10 did. -/
def baseCooldown (actionsThisHour : ℤ) : ℤ :=
  if actionsThisHour > 15 then 5 * Minute
  else if actionsThisHour > 10 then 3 * Minute
  else 2 * Minute

/-- Embedding of `GetCooldownDuration(actionsThisHour int)` from
`internal/stealth/stealth.go` (lines 679-691): it returns
`RandomDelay(baseCooldown, baseCooldown*2)`, with the random draw again
modelled by the oracle parameter `r`. -/
def GetCooldownDuration (actionsThisHour r : ℤ) : ℤ :=
  RandomDelay (baseCooldown actionsThisHour) (baseCooldown actionsThisHour * 2) r

/-- Embedding of `CheckDailyLimit(currentCount, limit int)` from
`internal/stealth/stealth.go` (lines 663-668):
`if currentCount >= limit { return false, 0 }; return true, limit - currentCount`. -/
def CheckDailyLimit (currentCount limit : ℤ) : Bool × ℤ :=
  if currentCount ≥ limit then (false, 0) else (true, limit - currentCount)

/-- Embedding of `CheckHourlyLimit(currentCount, limit int)` from
`internal/stealth/stealth.go` (lines 671-676), identical in shape to the
daily check. -/
def CheckHourlyLimit (currentCount limit : ℤ) : Bool × ℤ :=
  if currentCount ≥ limit then (false, 0) else (true, limit - currentCount)

/-- A 2D coordinate, embedding of `type Point struct { X, Y float64 }` from
`internal/stealth/stealth.go` (lines 25-28).  The field type `K` is a
characteristic-zero field standing in for `float64` (exact arithmetic in
place of IEEE rounding); theorems instantiate it at `ℝ` or `ℚ`. -/
structure Point (K : Type) where
  X : K
  Y : K
deriving DecidableEq

/-- The loop body of `CubicBezierCurve` from `internal/stealth/stealth.go`
(lines 92-105): the standard four-point cubic blending formula
`B(t) = (1-t)^3 P0 + 3 (1-t)^2 t P1 + 3 (1-t) t^2 P2 + t^3 P3`,
applied componentwise. -/
def bezierPoint {K : Type} [Field K] (start pEnd control1 control2 : Point K)
    (t : K) : Point K :=
  let oneMinusT : K := 1 - t
  { X := oneMinusT ^ 3 * start.X +
      3 * oneMinusT ^ 2 * t * control1.X +
      3 * oneMinusT * t ^ 2 * control2.X +
      t ^ 3 * pEnd.X
    Y := oneMinusT ^ 3 * start.Y +
      3 * oneMinusT ^ 2 * t * control1.Y +
      3 * oneMinusT * t ^ 2 * control2.Y +
      t ^ 3 * pEnd.Y }

/-- Embedding of `CubicBezierCurve(start, end, control1, control2 Point, steps int)`
from `internal/stealth/stealth.go` (lines 86-109).  For each
`i ∈ [0, steps)` it samples the blending formula at
`t := float64(i) / float64(steps-1)`.  (In the field embedding a zero
denominator yields `t = 0` by the `x / 0 = 0` convention, where Go's
float division would yield NaN; either way the affected sample differs
from the curve endpoints, see the `steps = 1` counterexample below.)
The Go parameter `end` is renamed `pEnd` because `end` is a Lean keyword. -/
def CubicBezierCurve {K : Type} [Field K] (start pEnd control1 control2 : Point K)
    (steps : ℕ) : List (Point K) :=
  (List.range steps).map fun (i : ℕ) =>
    bezierPoint start pEnd control1 control2 ((i : K) / ((steps : K) - 1))

/-- Embedding of Go's `math.Atan2(y, x)` by its case specification
(quadrant-corrected arctangent; `Atan2(0, 0) = 0`). -/
noncomputable def atan2 (y x : ℝ) : ℝ :=
  if 0 < x then Real.arctan (y / x)
  else if x < 0 then
    (if 0 ≤ y then Real.arctan (y / x) + Real.pi else Real.arctan (y / x) - Real.pi)
  else if 0 < y then Real.pi / 2
  else if y < 0 then -(Real.pi / 2)
  else 0

/-- Embedding of `generateControlPoints(start, end Point) []Point` from
`internal/stealth/stealth.go` (lines 112-137).  The two `rng.Float64()`
draws are modelled by the parameters `r1` and `r2`; the returned two-element
slice is modelled as a pair. -/
noncomputable def generateControlPoints (start pEnd : Point ℝ) (r1 r2 : ℝ) :
    Point ℝ × Point ℝ :=
  let dx := pEnd.X - start.X
  let dy := pEnd.Y - start.Y
  let distance := Real.sqrt (dx * dx + dy * dy)
  let angle := atan2 dy dx
  let perpAngle := angle + Real.pi / 2
  let offset1 := (r1 - 0.5) * distance * 0.3
  let cp1 : Point ℝ :=
    { X := start.X + dx / 3 + Real.cos perpAngle * offset1
      Y := start.Y + dy / 3 + Real.sin perpAngle * offset1 }
  let offset2 := (r2 - 0.5) * distance * 0.3
  let cp2 : Point ℝ :=
    { X := start.X + 2 * dx / 3 + Real.cos perpAngle * offset2
      Y := start.Y + 2 * dy / 3 + Real.sin perpAngle * offset2 }
  (cp1, cp2)

/-- A low-level keyboard event emitted by the typing simulator: either text
input of one character (`element.Input(string(char))`) or a backspace key
press (`page.Keyboard.Press(input.Backspace)`). -/
inductive KeyEvent where
  | input (c : Char)
  | backspace
deriving DecidableEq

/-- Embedding of the QWERTY adjacency table `typoMap` inside
`randomTypo(char rune) rune` from `internal/stealth/stealth.go`
(lines 444-471). -/
def typoMap (c : Char) : List Char :=
  match c with
  | 'a' => ['s', 'q', 'w', 'z']
  | 'b' => ['v', 'g', 'h', 'n']
  | 'c' => ['x', 'd', 'f', 'v']
  | 'd' => ['s', 'e', 'r', 'f', 'c', 'x']
  | 'e' => ['w', 'r', 'd', 's']
  | 'f' => ['d', 'r', 't', 'g', 'v', 'c']
  | 'g' => ['f', 't', 'y', 'h', 'b', 'v']
  | 'h' => ['g', 'y', 'u', 'j', 'n', 'b']
  | 'i' => ['u', 'o', 'k', 'j']
  | 'j' => ['h', 'u', 'i', 'k', 'm', 'n']
  | 'k' => ['j', 'i', 'o', 'l', 'm']
  | 'l' => ['k', 'o', 'p']
  | 'm' => ['n', 'j', 'k']
  | 'n' => ['b', 'h', 'j', 'm']
  | 'o' => ['i', 'p', 'l', 'k']
  | 'p' => ['o', 'l']
  | 'q' => ['w', 'a']
  | 'r' => ['e', 't', 'f', 'd']
  | 's' => ['a', 'w', 'e', 'd', 'x', 'z']
  | 't' => ['r', 'y', 'g', 'f']
  | 'u' => ['y', 'i', 'j', 'h']
  | 'v' => ['c', 'f', 'g', 'b']
  | 'w' => ['q', 'e', 's', 'a']
  | 'x' => ['z', 's', 'd', 'c']
  | 'y' => ['t', 'u', 'h', 'g']
  | 'z' => ['a', 's', 'x']
  | _ => []

/-- Embedding of `randomTypo(char rune) rune` from
`internal/stealth/stealth.go` (lines 443-479): lowercase the character
(modelled with `Char.toLower`, matching the Go byte-level lowercase for
ASCII input), look it up in the adjacency table, and pick the entry at the
random index `rng.Intn(len(typos))`, modelled by `r % length` for the
oracle parameter `r`; characters outside the table are returned unchanged
(`List.getD` falls back to `char` on the empty list). -/
def randomTypo (char : Char) (r : ℕ) : Char :=
  let typos := typoMap char.toLower
  typos.getD (r % typos.length) char

/-- The keyboard events emitted by the per-character loop of
`TypeText(page, selector, text string)` from `internal/stealth/stealth.go`
(lines 397-416), starting at character position `i`.  The oracle `o`
models the per-character `rng.Float64() < 0.02` typo branch and `p` models
the random index drawn inside `randomTypo`.  With probability given by
`o i` the loop first inputs a wrong adjacent character and then presses
Backspace; in all cases it then inputs the correct character. -/
def typeTextGo (o : ℕ → Bool) (p : ℕ → ℕ) : ℕ → List Char → List KeyEvent
  | _, [] => []
  | i, c :: rest =>
    (if o i then [KeyEvent.input (randomTypo c (p i)), KeyEvent.backspace] else []) ++
      (KeyEvent.input c :: typeTextGo o p (i + 1) rest)

/-- Embedding of the typing loop of `TypeText` from
`internal/stealth/stealth.go` (lines 382-419), as the event stream it
sends to the focused element (the element lookup, click and sleeps carry
no text-state and are omitted).  Positions are character indices (Go's
`range` yields byte offsets, used there only for delay computation). -/
def TypeText (text : List Char) (o : ℕ → Bool) (p : ℕ → ℕ) : List KeyEvent :=
  typeTextGo o p 0 text

/-- The text committed to the target field after replaying a keyboard event
stream against a buffer: character input appends, a Backspace press deletes
the last character. -/
def applyEvents : List KeyEvent → List Char → List Char
  | [], buf => buf
  | KeyEvent.input c :: rest, buf => applyEvents rest (buf ++ [c])
  | KeyEvent.backspace :: rest, buf => applyEvents rest buf.dropLast

end Stealth

namespace Connection

/-- Embedding of the constant `MaxNoteLength = 300` from
`internal/connection/connection.go` (line 18). -/
def MaxNoteLength : ℕ := 300

/-- Embedding of the truncation step of `TypePersonalizedNote` from
`internal/connection/connection.go` (lines 315-318) and
`src/unnamed/part_003` (lines 609-612):
`if len(note) > MaxNoteLength { note = note[:MaxNoteLength-3] + "..." }`.
Strings are modelled as character lists (Go slices bytes; for ASCII notes
the two coincide). -/
def truncateNote (note : List Char) : List Char :=
  if note.length > MaxNoteLength then note.take (MaxNoteLength - 3) ++ ['.', '.', '.']
  else note

/-- Embedding of the constant `DefaultNote` from `src/unnamed/part_003`
(line 18), substituted for an empty note before typing and recording. -/
def DefaultNote : String :=
  "Hi, I came across your profile and was impressed by your background and experience. I'd love to connect and exchange insights about the industry. I believe we could have valuable discussions and potentially explore collaboration opportunities. Looking forward to connecting with you and learning from your expertise."

/-- Outcomes of the external calls made by `TypePersonalizedNote`
(`src/unnamed/part_003`, lines 604-702): whether the note textarea was
found, whether clicking it succeeded, whether `Element.Input` succeeded,
whether the JavaScript `setValue` fallback succeeded, and whether the
verification read of `el.value` succeeded (a failed read is only logged). -/
structure NoteEnv where
  fieldFound : Bool
  clickOk : Bool
  inputOk : Bool
  jsOk : Bool
  verifyReadOk : Bool

/-- Embedding of `TypePersonalizedNote(page, note string)` from
`src/unnamed/part_003` (lines 604-702): truncate the note, find and click
the textarea, enter the text by `Input` with a JavaScript fallback, then
verify the committed value is non-empty.  The pair returned is the Go
error result together with the textarea content after the call (`none`
when nothing was entered). -/
def TypePersonalizedNote (env : NoteEnv) (note : List Char) :
    Except String Unit × Option (List Char) :=
  let note := truncateNote note
  if env.fieldFound = false then
    (Except.error "note field not found after trying all selectors", none)
  else if env.clickOk = false then
    (Except.error "failed to click note field", none)
  else if env.inputOk || env.jsOk then
    if env.verifyReadOk && note.isEmpty then
      (Except.error "note text was not entered successfully", some note)
    else (Except.ok (), some note)
  else
    (Except.error "failed to enter note text: input failed, js failed", none)

/-- A record handed to the persistence collaborator by the connection
pipeline: `storage.RecordConnectionRequest` or `storage.RecordAction`. -/
inductive Persist where
  | connectionRequest (profileURL note : String)
  | action (kind : String)
deriving DecidableEq

/-- Outcomes of the external calls made by `SendConnectionRequest`
(`src/unnamed/part_003`, lines 22-144): the daily-count storage read
(`none` models a storage error), and the success of each page primitive.
The note-dialog steps (`hasAddNoteOption`, `clickAddNoteButton`,
`TypePersonalizedNote`, lines 88-113) and `dismissVerificationPrompt`
(lines 121-124) only log their failures, so their outcomes never influence
the result or what is persisted. -/
structure SendEnv where
  requestsToday : Option ℤ
  navigateOk : Bool
  waitLoadOk : Bool
  connectClickOk : Bool
  hasNoteOption : Bool
  addNoteClickOk : Bool
  typeNoteOk : Bool
  sendClickOk : Bool
  dismissOk : Bool

/-- Embedding of `SendConnectionRequest(page, profileURL, note string, cfg)`
from `src/unnamed/part_003` (lines 22-144): check the daily limit, navigate,
wait for load, click Connect, optionally add a note (failures swallowed),
click Send, then record the connection request and the rate-limiting
action.  Returns the Go error result and the list of persistence calls
made (`storage.RecordConnectionRequest`, `storage.RecordAction`). -/
def SendConnectionRequest (env : SendEnv) (dailyLimit : ℤ) (profileURL note : String) :
    Except String Unit × List Persist :=
  match env.requestsToday with
  | none => (Except.error "failed to check daily limit", [])
  | some requestsToday =>
    if requestsToday ≥ dailyLimit then
      (Except.error "daily connection request limit reached", [])
    else if env.navigateOk = false then
      (Except.error "failed to navigate to profile", [])
    else if env.waitLoadOk = false then
      (Except.error "failed to wait for page load", [])
    else if env.connectClickOk = false then
      (Except.error "failed to click connect button", [])
    else
      let note := if note = "" then DefaultNote else note
      if env.sendClickOk = false then
        (Except.error "failed to click send button", [])
      else
        (Except.ok (),
          [Persist.connectionRequest profileURL note, Persist.action "connection_request"])

/-- Embedding of `CheckDailyLimit(cfg)` from `src/unnamed/part_003`
(lines 818-829) and `internal/connection/connection.go` (lines 505-516):
`remaining := cfg.Connection.DailyLimit - requestsToday;
allowed := remaining > 0`.  The storage read
`storage.GetConnectionRequestsSentToday()` is modelled by the `Option`
parameter (`none` models a storage error, which the Go code propagates as
`(false, 0, err)`). -/
def CheckDailyLimit (requestsToday : Option ℤ) (dailyLimit : ℤ) :
    Bool × ℤ × Option String :=
  match requestsToday with
  | none => (false, 0, some "failed to check daily limit")
  | some c =>
    let remaining := dailyLimit - c
    (decide (remaining > 0), remaining, none)

end Connection

namespace Messaging

/-- One completed browser or storage operation performed by `SendMessage`
(`src/unnamed/part_002`, lines 78-140). -/
inductive MsgAction where
  | navigate
  | clickMessageButton
  | typeMessage
  | clickSendMessage
  | recordMessage
  | recordAction
deriving DecidableEq

/-- Outcomes of the external calls made by `SendMessage`: the page
primitives, the `HasSentMessage` history query (`queryOk`), the
`RecordMessage` insert (`recordMsgOk`) and the `RecordAction` insert
(`recordActionOk`). -/
structure MsgEnv where
  navigateOk : Bool
  waitLoadOk : Bool
  clickMsgOk : Bool
  typeOk : Bool
  clickSendOk : Bool
  queryOk : Bool
  recordMsgOk : Bool
  recordActionOk : Bool

/-- Embedding of `HasSentMessage(profileURL string) (bool, error)` from the
storage package (`src/unnamed/part_001`, lines 469-479): counts the rows of
the `messages` table whose `profile_url` matches and returns `count > 0`;
a failed query returns an error (Go: `(false, err)`).  The table is
modelled by the list of recorded profile URLs and the query outcome by the
oracle `queryOk`. -/
def HasSentMessage (messages : List String) (profileURL : String) (queryOk : Bool) :
    Except String Bool :=
  if queryOk = false then Except.error "failed to check message history"
  else Except.ok (decide (0 < messages.countP (fun u => u == profileURL)))

/-- Embedding of `RecordMessage(msg Message) error` from the storage
package (`src/unnamed/part_001`, lines 454-467): inserts one row into the
`messages` table; a failed insert returns an error and leaves the table
unchanged.  The insert outcome is modelled by the oracle `insertOk`. -/
def RecordMessage (messages : List String) (profileURL : String) (insertOk : Bool) :
    Except String Unit × List String :=
  if insertOk = false then (Except.error "failed to record message", messages)
  else (Except.ok (), profileURL :: messages)

/-- Embedding of `SendMessage(page, profileURL, message string, cfg)` from
`src/unnamed/part_002` (lines 78-140): check `storage.HasSentMessage`
(propagating a query error); skip immediately when a message to this
profile is already recorded; otherwise navigate, click the Message button,
type, click Send, then call `storage.RecordMessage` and
`storage.RecordAction` — whose failures are only logged (lines 123-137),
so the function still returns nil when recording fails.  Returns the Go
error result, the list of completed operations, and the `messages` table
after the call. -/
def SendMessage (messages : List String) (profileURL : String) (env : MsgEnv) :
    Except String Unit × List MsgAction × List String :=
  match HasSentMessage messages profileURL env.queryOk with
  | Except.error e => (Except.error e, [], messages)
  | Except.ok alreadySent =>
    if alreadySent then (Except.ok (), [], messages)
    else if env.navigateOk = false then
      (Except.error "failed to navigate to profile", [], messages)
    else if env.waitLoadOk = false then
      (Except.error "failed to wait for page load", [MsgAction.navigate], messages)
    else if env.clickMsgOk = false then
      (Except.error "failed to click message button", [MsgAction.navigate], messages)
    else if env.typeOk = false then
      (Except.error "failed to type message",
        [MsgAction.navigate, MsgAction.clickMessageButton], messages)
    else if env.clickSendOk = false then
      (Except.error "failed to send message",
        [MsgAction.navigate, MsgAction.clickMessageButton, MsgAction.typeMessage], messages)
    else
      let recorded := RecordMessage messages profileURL env.recordMsgOk
      (Except.ok (),
        [MsgAction.navigate, MsgAction.clickMessageButton, MsgAction.typeMessage,
          MsgAction.clickSendMessage] ++
          (match recorded.1 with
            | Except.ok _ => [MsgAction.recordMessage]
            | Except.error _ => []) ++
          (if env.recordActionOk then [MsgAction.recordAction] else []),
        recorded.2)

end Messaging

namespace Cli

/-- The message built by `fmt.Errorf("operation failed after %d attempts: %w", ...)`
in `retryWithBackoff` (`src/unnamed/part_000`, line 317). -/
def wrapRetryError (maxRetries : ℕ) (lastErr : String) : String :=
  "operation failed after " ++ toString maxRetries ++ " attempts: " ++ lastErr

/-- The loop of `retryWithBackoff(operation func() error, maxRetries int)`
from `src/unnamed/part_000` (lines 294-318), with the `attempt`-th call of
`operation` modelled by the oracle `res` (`none` is a nil error) and the
remaining loop iterations counted by `fuel` (`fuel = maxRetries - attempt + 1`).
Returns the final error, the number of calls made, and the backoff sleeps
taken between attempts, in seconds (`2^attempt`, slept only while
`attempt < maxRetries`). -/
def retryGo (res : ℕ → Option String) (maxRetries : ℕ) :
    String → ℕ → ℕ → Option String × ℕ × List ℕ
  | lastErr, _, 0 => (some (wrapRetryError maxRetries lastErr), 0, [])
  | _, attempt, fuel + 1 =>
    match res attempt with
    | none => (none, 1, [])
    | some e =>
      if fuel = 0 then (some (wrapRetryError maxRetries e), 1, [])
      else
        let r := retryGo res maxRetries e (attempt + 1) fuel
        (r.1, r.2.1 + 1, 2 ^ attempt :: r.2.2)

/-- Embedding of `retryWithBackoff` from `src/unnamed/part_000`
(lines 294-318): attempts start at 1 and `lastErr` starts out nil
(modelled as the empty string). -/
def retryWithBackoff (res : ℕ → Option String) (maxRetries : ℕ) :
    Option String × ℕ × List ℕ :=
  retryGo res maxRetries "" 1 maxRetries

/-- Embedding of the connection-request batch loop of `runAutomationCycle`
from `src/unnamed/part_000` (lines 170-220): for each profile, consult
`connection.CheckDailyLimit` (modelled by `gate`; `none` is a storage
error, which `break`s, as does a denied admission), then run the
retry-wrapped send (its overall success modelled by `send`); a failed send
logs and `continue`s to the next profile.  Returns the number of profiles
for which a send was attempted and the number of successful requests. -/
def runBatch (gate : ℕ → Option Bool) (send : ℕ → Bool) : List ℕ → ℕ × ℕ
  | [] => (0, 0)
  | profile :: rest =>
    match gate profile with
    | none => (0, 0)
    | some false => (0, 0)
    | some true =>
      let r := runBatch gate send rest
      if send profile then (r.1 + 1, r.2 + 1) else (r.1 + 1, r.2)

end Cli

/-! ## Theorems settling the claims -/

/-- Claim C2: for every pair of durations with `min <= max`, the timing
primitive `RandomDelay(min, max)` returns a value `d` with
`min <= d <= max`; for every pair with `min >= max` it returns exactly
`min`.  The random draw `r` satisfies the `Int63n` contract
`0 ≤ r < max - min` whenever it is consulted (`min < max`). -/
theorem RandomDelay_range_spec (min max r : ℤ)
    (hr : min < max → 0 ≤ r ∧ r < max - min) :
    (min ≤ max → min ≤ Stealth.RandomDelay min max r ∧ Stealth.RandomDelay min max r ≤ max) ∧
    (max ≤ min → Stealth.RandomDelay min max r = min) := by
  unfold Stealth.RandomDelay
  constructor
  · intro hle
    by_cases h : min ≥ max
    · simp only [if_pos h]
      omega
    · have hlt : min < max := by omega
      have := hr hlt
      simp only [if_neg h]
      omega
  · intro hge
    simp only [if_pos (show min ≥ max from hge)]

theorem RandomDelay_range_spec_witness :
    (2 : ℤ) ≤ Stealth.RandomDelay 2 5 1 ∧ Stealth.RandomDelay 2 5 1 ≤ 5 :=
  (RandomDelay_range_spec 2 5 1 (fun _ => by decide)).1 (by decide)

/-- Claim C4: for every count and limit, the rate-governor admission check
returns `(false, 0)` once exactly `limit` actions of a kind have been
recorded in the day window, and `(true, limit - count)` for every count
strictly below the limit — for both `stealth.CheckDailyLimit` and the
storage-backed `connection.CheckDailyLimit`. -/
theorem CheckDailyLimit_admission_spec (count limit : ℤ) :
    (count = limit → Stealth.CheckDailyLimit count limit = (false, 0)) ∧
    (count < limit → Stealth.CheckDailyLimit count limit = (true, limit - count)) ∧
    (count = limit → Connection.CheckDailyLimit (some count) limit = (false, 0, none)) ∧
    (count < limit → Connection.CheckDailyLimit (some count) limit = (true, limit - count, none)) := by
  refine ⟨fun h => ?_, fun h => ?_, fun h => ?_, fun h => ?_⟩
  · unfold Stealth.CheckDailyLimit
    rw [if_pos (by omega)]
  · unfold Stealth.CheckDailyLimit
    rw [if_neg (by omega)]
  · unfold Connection.CheckDailyLimit
    simp only
    rw [show limit - count = 0 by omega]
    norm_num
  · unfold Connection.CheckDailyLimit
    simp only
    rw [decide_eq_true (by omega : limit - count > 0)]

theorem CheckDailyLimit_admission_witness :
    Stealth.CheckDailyLimit 4 5 = (true, 1) ∧
    Stealth.CheckDailyLimit 5 5 = (false, 0) ∧
    Connection.CheckDailyLimit (some 4) 5 = (true, 1, none) ∧
    Connection.CheckDailyLimit (some 5) 5 = (false, 0, none) :=
  ⟨(CheckDailyLimit_admission_spec 4 5).2.1 (by decide),
    (CheckDailyLimit_admission_spec 5 5).1 rfl,
    (CheckDailyLimit_admission_spec 4 5).2.2.2 (by decide),
    (CheckDailyLimit_admission_spec 5 5).2.2.1 rfl⟩

/-- Claim C7: for every hourly action count, the cooldown duration lies in
`[base, 2*base]` where the base is 2 minutes for counts of at most 10,
3 minutes for counts in (10, 15], and 5 minutes for counts above 15; the
base cooldown is monotonically non-decreasing in the hourly count.  The
random draw `r` satisfies the `Int63n` contract `0 ≤ r < base`. -/
theorem GetCooldownDuration_spec (n r : ℤ) (h0 : 0 ≤ r) (h1 : r < Stealth.baseCooldown n) :
    (Stealth.baseCooldown n ≤ Stealth.GetCooldownDuration n r ∧
      Stealth.GetCooldownDuration n r ≤ 2 * Stealth.baseCooldown n) ∧
    (n ≤ 10 → Stealth.baseCooldown n = 2 * Minute) ∧
    (10 < n → n ≤ 15 → Stealth.baseCooldown n = 3 * Minute) ∧
    (15 < n → Stealth.baseCooldown n = 5 * Minute) ∧
    (∀ m k : ℤ, m ≤ k → Stealth.baseCooldown m ≤ Stealth.baseCooldown k) := by
  have hpos : ∀ j : ℤ, 0 < Stealth.baseCooldown j := by
    intro j
    unfold Stealth.baseCooldown Minute Second
    split_ifs <;> norm_num
  refine ⟨?_, fun h => ?_, fun h h' => ?_, fun h => ?_, fun m k h => ?_⟩
  · unfold Stealth.GetCooldownDuration Stealth.RandomDelay
    have := hpos n
    rw [if_neg (by omega)]
    omega
  · unfold Stealth.baseCooldown
    rw [if_neg (by omega), if_neg (by omega)]
  · unfold Stealth.baseCooldown
    rw [if_neg (by omega), if_pos (by omega)]
  · unfold Stealth.baseCooldown
    rw [if_pos (by omega)]
  · unfold Stealth.baseCooldown Minute Second
    split_ifs <;> omega

theorem GetCooldownDuration_spec_witness :
    Stealth.baseCooldown 5 ≤ Stealth.GetCooldownDuration 5 0 ∧
    Stealth.GetCooldownDuration 5 0 ≤ 2 * Stealth.baseCooldown 5 :=
  (GetCooldownDuration_spec 5 0 (by decide) (by decide)).1

/-- Claim C6: every note longer than the 300-character maximum is typed as
its first 297 characters followed by `"..."` (total length exactly 300),
treated as a non-fatal adjustment (the typing routine still succeeds and
enters the truncated text); every note of length at most 300 is typed
unchanged. -/
theorem TypePersonalizedNote_truncation_spec (note : List Char) (env : Connection.NoteEnv) :
    (note.length > 300 →
      Connection.truncateNote note = note.take 297 ++ ['.', '.', '.'] ∧
      (Connection.truncateNote note).length = 300) ∧
    (note.length ≤ 300 → Connection.truncateNote note = note) ∧
    (env.fieldFound = true → env.clickOk = true → env.inputOk = true → note ≠ [] →
      Connection.TypePersonalizedNote env note =
        (Except.ok (), some (Connection.truncateNote note))) := by
  have hlen : ∀ h : note.length > 300,
      Connection.truncateNote note = note.take 297 ++ ['.', '.', '.'] := by
    intro h
    unfold Connection.truncateNote Connection.MaxNoteLength
    rw [if_pos (by omega)]
  refine ⟨fun h => ⟨hlen h, ?_⟩, fun h => ?_, fun h1 h2 h3 h4 => ?_⟩
  · rw [hlen h]
    simp [List.length_take]
    omega
  · unfold Connection.truncateNote Connection.MaxNoteLength
    rw [if_neg (by omega)]
  · have hne : ¬ (Connection.truncateNote note).isEmpty = true := by
      unfold Connection.truncateNote Connection.MaxNoteLength
      split_ifs with hgt
      · simp
      · simp [List.isEmpty_iff, h4]
    unfold Connection.TypePersonalizedNote
    rw [h1, h2, h3]
    simp only [Bool.true_eq_false, if_false, Bool.true_or, if_true]
    rw [show (env.verifyReadOk && (Connection.truncateNote note).isEmpty) = false by
      cases hv : env.verifyReadOk <;> simp_all]
    simp

theorem TypePersonalizedNote_truncation_witness :
    Connection.truncateNote (List.replicate 301 'a') =
      (List.replicate 301 'a').take 297 ++ ['.', '.', '.'] ∧
    (Connection.truncateNote (List.replicate 301 'a')).length = 300 :=
  (TypePersonalizedNote_truncation_spec (List.replicate 301 'a')
    ⟨true, true, true, true, true⟩).1 (by norm_num)

/-- Replaying a concatenation of event streams replays them in order. -/
theorem applyEvents_append (xs ys : List Stealth.KeyEvent) (buf : List Char) :
    Stealth.applyEvents (xs ++ ys) buf = Stealth.applyEvents ys (Stealth.applyEvents xs buf) := by
  induction xs generalizing buf with
  | nil => rfl
  | cons e rest ih => cases e <;> simp [Stealth.applyEvents, ih]

/-- Replaying the typing loop's events from any position appends exactly the
remaining input text to the buffer. -/
theorem typeTextGo_commit (o : ℕ → Bool) (p : ℕ → ℕ) (text : List Char) :
    ∀ i buf, Stealth.applyEvents (Stealth.typeTextGo o p i text) buf = buf ++ text := by
  induction text with
  | nil => intro i buf; simp [Stealth.typeTextGo, Stealth.applyEvents]
  | cons c rest ih =>
    intro i buf
    cases h : o i with
    | false => simp [Stealth.typeTextGo, h, Stealth.applyEvents, ih]
    | true =>
      simp [Stealth.typeTextGo, h, applyEvents_append, Stealth.applyEvents,
        List.dropLast_concat, ih]

/-- Claim C1: in every execution of the typing simulator `TypeText`, an
injected typo character is immediately followed by a corrective Backspace
press, before the correct character and any subsequent character; and
replaying the whole event stream commits exactly the input text. -/
theorem TypeText_typo_correction_spec (text : List Char) (o : ℕ → Bool) (p : ℕ → ℕ) :
    Stealth.applyEvents (Stealth.TypeText text o p) [] = text ∧
    ∀ i c rest, o i = true →
      Stealth.typeTextGo o p i (c :: rest) =
        Stealth.KeyEvent.input (Stealth.randomTypo c (p i)) :: Stealth.KeyEvent.backspace ::
          Stealth.KeyEvent.input c :: Stealth.typeTextGo o p (i + 1) rest := by
  constructor
  · simpa [Stealth.TypeText] using typeTextGo_commit o p text 0 []
  · intro i c rest h
    simp [Stealth.typeTextGo, h]

theorem TypeText_typo_correction_witness :
    Stealth.applyEvents
      (Stealth.TypeText ['h', 'i'] (fun i => decide (i = 0)) (fun _ => 0)) [] = ['h', 'i'] ∧
    Stealth.typeTextGo (fun i => decide (i = 0)) (fun _ => 0) 0 ('h' :: ['i']) =
      Stealth.KeyEvent.input (Stealth.randomTypo 'h' 0) :: Stealth.KeyEvent.backspace ::
        Stealth.KeyEvent.input 'h' ::
          Stealth.typeTextGo (fun i => decide (i = 0)) (fun _ => 0) 1 ['i'] :=
  ⟨(TypeText_typo_correction_spec ['h', 'i'] (fun i => decide (i = 0)) (fun _ => 0)).1,
    (TypeText_typo_correction_spec ['h', 'i'] (fun i => decide (i = 0)) (fun _ => 0)).2
      0 'h' ['i'] (by decide)⟩

/-- Sampling the blending formula at `t = 0` yields the start point. -/
theorem bezierPoint_zero {K : Type} [Field K] (start pEnd c1 c2 : Stealth.Point K) :
    Stealth.bezierPoint start pEnd c1 c2 0 = start := by
  cases start
  simp [Stealth.bezierPoint]

/-- Sampling the blending formula at `t = 1` yields the end point. -/
theorem bezierPoint_one {K : Type} [Field K] (start pEnd c1 c2 : Stealth.Point K) :
    Stealth.bezierPoint start pEnd c1 c2 1 = pEnd := by
  cases pEnd
  simp [Stealth.bezierPoint]

/-- When all four defining points coincide, every sample of the blending
formula is that point (the Bernstein weights sum to 1). -/
theorem bezierPoint_const {K : Type} [Field K] (p : Stealth.Point K) (t : K) :
    Stealth.bezierPoint p p p p t = p := by
  cases p with
  | mk x y =>
    simp only [Stealth.bezierPoint, Stealth.Point.mk.injEq]
    constructor <;> ring

/-- Claim C3, amended to sample counts `n ≥ 2`: for every start and end
point and every sample count `n ≥ 2`, `CubicBezierCurve` produces exactly
`n` points, whose first point equals `start` and whose last point equals
`end` (before any overshoot perturbation, which `MoveMouse` applies only
after the curve is sampled).  For `n = 1` the single sample is taken at
`t = 0/0` and cannot equal both endpoints — see the counterexample. -/
theorem CubicBezierCurve_samples_spec {K : Type} [Field K] [CharZero K]
    (start pEnd c1 c2 : Stealth.Point K) (n : ℕ) (hn : 2 ≤ n) :
    (Stealth.CubicBezierCurve start pEnd c1 c2 n).length = n ∧
    (Stealth.CubicBezierCurve start pEnd c1 c2 n).head? = some start ∧
    (Stealth.CubicBezierCurve start pEnd c1 c2 n).getLast? = some pEnd := by
  obtain ⟨m, rfl⟩ : ∃ m, n = m + 2 := ⟨n - 2, by omega⟩
  have hcurve : Stealth.CubicBezierCurve start pEnd c1 c2 (m + 2) =
      (List.range (m + 2)).map
        (fun i : ℕ => Stealth.bezierPoint start pEnd c1 c2
          ((i : K) / (((m + 2 : ℕ) : K) - 1))) := rfl
  refine ⟨?_, ?_, ?_⟩
  · rw [hcurve, List.length_map, List.length_range]
  · rw [hcurve, List.head?_eq_getElem?, List.getElem?_map,
      List.getElem?_range (show 0 < m + 2 by omega)]
    simp only [Option.map_some', Nat.cast_zero, zero_div]
    rw [bezierPoint_zero]
  · rw [hcurve, List.getLast?_eq_getElem?, List.length_map, List.length_range,
      List.getElem?_map, List.getElem?_range (show m + 2 - 1 < m + 2 by omega)]
    have ht : (((m + 2 - 1 : ℕ) : K) / (((m + 2 : ℕ) : K) - 1)) = 1 := by
      have h1 : ((m + 2 - 1 : ℕ) : K) = ((m + 1 : ℕ) : K) := by norm_num
      have h2 : (((m + 2 : ℕ) : K) - 1) = ((m + 1 : ℕ) : K) := by push_cast; ring
      rw [h1, h2, div_self]
      exact_mod_cast Nat.succ_ne_zero m
    simp only [Option.map_some', ht]
    rw [bezierPoint_one]

theorem CubicBezierCurve_samples_witness :
    (Stealth.CubicBezierCurve (K := ℚ) ⟨0, 0⟩ ⟨2, 3⟩ ⟨1, 1⟩ ⟨1, 2⟩ 3).length = 3 ∧
    (Stealth.CubicBezierCurve (K := ℚ) ⟨0, 0⟩ ⟨2, 3⟩ ⟨1, 1⟩ ⟨1, 2⟩ 3).head? = some ⟨0, 0⟩ ∧
    (Stealth.CubicBezierCurve (K := ℚ) ⟨0, 0⟩ ⟨2, 3⟩ ⟨1, 1⟩ ⟨1, 2⟩ 3).getLast? = some ⟨2, 3⟩ :=
  CubicBezierCurve_samples_spec ⟨0, 0⟩ ⟨2, 3⟩ ⟨1, 1⟩ ⟨1, 2⟩ 3 (by decide)

/-- Counterexample to claim C3 as stated (quantifying over every sample
count): with `steps = 1` the single sample is taken at `t = 0/0` (NaN in
the Go float semantics, `0` in the field embedding) and the last point of
the path is not the end point even for non-degenerate endpoints. -/
theorem CubicBezierCurve_single_sample_cex :
    (Stealth.CubicBezierCurve (K := ℚ) ⟨0, 0⟩ ⟨1, 1⟩ ⟨0, 0⟩ ⟨1, 1⟩ 1).getLast? ≠
      some ⟨1, 1⟩ := by
  have h1 : Stealth.CubicBezierCurve (K := ℚ) ⟨0, 0⟩ ⟨1, 1⟩ ⟨0, 0⟩ ⟨1, 1⟩ 1 =
      [Stealth.bezierPoint ⟨0, 0⟩ ⟨1, 1⟩ ⟨0, 0⟩ ⟨1, 1⟩ (((0 : ℕ) : ℚ) / (((1 : ℕ) : ℚ) - 1))] := by
    simp [Stealth.CubicBezierCurve, List.range_succ]
  have ht : (((0 : ℕ) : ℚ) / (((1 : ℕ) : ℚ) - 1)) = 0 := by norm_num
  rw [h1, ht, bezierPoint_zero]
  simp [Stealth.Point.mk.injEq]

/-- With coinciding start and end the distance is zero, so both random
perpendicular offsets vanish and both control points equal the start
point, whatever the angle computation produced. -/
theorem generateControlPoints_degenerate (p : Stealth.Point ℝ) (r1 r2 : ℝ) :
    Stealth.generateControlPoints p p r1 r2 = (p, p) := by
  cases p with
  | mk x y => simp [Stealth.generateControlPoints, Stealth.Point.mk.injEq]

/-- Claim C9: when the start point equals the end point, the motion
synthesizer produces a degenerate path — the control points degenerate to
the start point and every sampled point equals the start point — with no
undefined value (the embedded `atan2`, `sqrt`, `cos` and `sin` are total,
and the zero distance cancels the angle-dependent offsets). -/
theorem MoveMouse_degenerate_spec (p : Stealth.Point ℝ) (r1 r2 : ℝ) (n : ℕ) :
    Stealth.generateControlPoints p p r1 r2 = (p, p) ∧
    Stealth.CubicBezierCurve p p (Stealth.generateControlPoints p p r1 r2).1
      (Stealth.generateControlPoints p p r1 r2).2 n = List.replicate n p := by
  have h := generateControlPoints_degenerate p r1 r2
  refine ⟨h, ?_⟩
  rw [h]
  rw [List.eq_replicate_iff]
  constructor
  · simp only [Stealth.CubicBezierCurve, List.length_map, List.length_range]
  · intro b hb
    simp only [Stealth.CubicBezierCurve, List.mem_map, List.mem_range] at hb
    obtain ⟨i, _, rfl⟩ := hb
    exact bezierPoint_const p _

/-- Claim C5: the connection request and the rate-limiting action are
persisted exactly when the pipeline reaches the successful send step; on
every earlier failure (storage error or limit reached on admission,
navigation failure, load-wait failure, connect button not clicked, send
button not clicked) the operation returns an error and persists nothing. -/
theorem SendConnectionRequest_persistence_spec (env : Connection.SendEnv) (limit : ℤ)
    (url note : String) :
    ((Connection.SendConnectionRequest env limit url note).2 ≠ [] ↔
      (Connection.SendConnectionRequest env limit url note).1 = Except.ok ()) ∧
    ((Connection.SendConnectionRequest env limit url note).1 = Except.ok () ↔
      (∃ c, env.requestsToday = some c ∧ c < limit) ∧ env.navigateOk = true ∧
        env.waitLoadOk = true ∧ env.connectClickOk = true ∧ env.sendClickOk = true) ∧
    ((Connection.SendConnectionRequest env limit url note).1 = Except.ok () →
      (Connection.SendConnectionRequest env limit url note).2 =
        [Connection.Persist.connectionRequest url
            (if note = "" then Connection.DefaultNote else note),
          Connection.Persist.action "connection_request"]) := by
  obtain ⟨rt, nav, wl, cc, hn, an, tn, sc, dm⟩ := env
  cases rt with
  | none => simp [Connection.SendConnectionRequest]
  | some c =>
    by_cases hc : c ≥ limit
    · simp only [Connection.SendConnectionRequest, if_pos hc]
      simp
      omega
    · cases nav <;> cases wl <;> cases cc <;> cases sc <;>
        simp [Connection.SendConnectionRequest, hc] <;> omega

theorem SendConnectionRequest_persistence_witness :
    (Connection.SendConnectionRequest
      ⟨some 4, true, true, true, true, true, true, true, true⟩ 5 "u" "n").2 ≠ [] :=
  (SendConnectionRequest_persistence_spec
    ⟨some 4, true, true, true, true, true, true, true, true⟩ 5 "u" "n").1.mpr rfl

/-- Every `SendMessage` call leaves the `messages` table unchanged or
prepends the one row it recorded: the table never shrinks. -/
theorem SendMessage_store_grows (messages : List String) (url2 : String)
    (env3 : Messaging.MsgEnv) :
    (Messaging.SendMessage messages url2 env3).2.2 = messages ∨
      (Messaging.SendMessage messages url2 env3).2.2 = url2 :: messages := by
  obtain ⟨nav, wl, cm, tp, cs, qk, rm, ra⟩ := env3
  cases qk with
  | false => left; rfl
  | true =>
    by_cases hmem : 0 < messages.countP (fun u => u == url2)
    · left
      simp [Messaging.SendMessage, Messaging.HasSentMessage, hmem]
    · cases nav <;> cases wl <;> cases cm <;> cases tp <;> cases cs <;> cases rm <;>
        simp [Messaging.SendMessage, Messaging.RecordMessage,
          Messaging.HasSentMessage, hmem]

/-- Claim C10, amended: when the message-history query succeeds and a
message to the profile is already recorded, `SendMessage` returns nil
immediately without navigating, clicking, typing, or recording anything;
a delivered message implies no message was recorded beforehand; when the
`RecordMessage` call after a delivered message succeeds, the following
invocation for the same profile performs nothing further; and no
invocation ever removes recorded rows, so a recorded profile stays
recorded across all later invocations.  (A failed `RecordMessage` is only
logged and `SendMessage` still returns nil, so a delivered but unrecorded
message can be re-sent — see the counterexample.) -/
theorem SendMessage_at_most_once_spec (messages : List String) (url : String)
    (env env2 : Messaging.MsgEnv) :
    (env.queryOk = true →
      Messaging.HasSentMessage messages url true = Except.ok true →
      Messaging.SendMessage messages url env = (Except.ok (), [], messages)) ∧
    (Messaging.MsgAction.clickSendMessage ∈ (Messaging.SendMessage messages url env).2.1 →
      env.queryOk = true ∧
        Messaging.HasSentMessage messages url true = Except.ok false) ∧
    (Messaging.MsgAction.clickSendMessage ∈ (Messaging.SendMessage messages url env).2.1 →
      env.recordMsgOk = true →
      Messaging.MsgAction.clickSendMessage ∉
        (Messaging.SendMessage (Messaging.SendMessage messages url env).2.2 url env2).2.1) ∧
    (∀ (msgs : List String) (url2 : String) (env3 : Messaging.MsgEnv),
      msgs.countP (fun u => u == url) ≤
        ((Messaging.SendMessage msgs url2 env3).2.2).countP (fun u => u == url)) := by
  have hgrow : ∀ (msgs : List String) (url2 : String) (env3 : Messaging.MsgEnv),
      msgs.countP (fun u => u == url) ≤
        ((Messaging.SendMessage msgs url2 env3).2.2).countP (fun u => u == url) := by
    intro msgs url2 env3
    rcases SendMessage_store_grows msgs url2 env3 with h | h <;> rw [h]
    rw [List.countP_cons]
    exact Nat.le_add_right _ _
  obtain ⟨nav, wl, cm, tp, cs, qk, rm, ra⟩ := env
  obtain ⟨n2, w2, c2, t2, s2, q2, r2, a2⟩ := env2
  cases qk with
  | false =>
    refine ⟨fun h => by simp at h, ?_, ?_, hgrow⟩ <;>
      simp [Messaging.SendMessage, Messaging.HasSentMessage]
  | true =>
    by_cases hmem : 0 < messages.countP (fun u => u == url)
    · refine ⟨?_, ?_, ?_, hgrow⟩ <;>
        simp [Messaging.SendMessage, Messaging.HasSentMessage, hmem]
    · cases nav <;> cases wl <;> cases cm <;> cases tp <;> cases cs <;> cases rm <;>
        cases q2 <;>
        refine ⟨?_, ?_, ?_, hgrow⟩ <;>
        simp [Messaging.SendMessage, Messaging.RecordMessage, Messaging.HasSentMessage,
          hmem, List.countP_cons, Nat.zero_lt_succ]

theorem SendMessage_at_most_once_witness :
    Messaging.SendMessage ["u"] "u" ⟨true, true, true, true, true, true, true, true⟩ =
      (Except.ok (), [], ["u"]) :=
  (SendMessage_at_most_once_spec ["u"] "u" ⟨true, true, true, true, true, true, true, true⟩
    ⟨true, true, true, true, true, true, true, true⟩).1 rfl rfl

/-- Counterexample to claim C10 as stated: a delivered message whose
`RecordMessage` insert fails is only logged (`src/unnamed/part_002`,
lines 123-130) and `SendMessage` still returns nil, so the message is not
recorded and a second invocation for the same profile delivers again —
two automated follow-up messages to one profile across invocations. -/
theorem SendMessage_record_failure_cex :
    Messaging.MsgAction.clickSendMessage ∈
      (Messaging.SendMessage [] "u"
        ⟨true, true, true, true, true, true, false, true⟩).2.1 ∧
    Messaging.MsgAction.clickSendMessage ∈
      (Messaging.SendMessage
        (Messaging.SendMessage [] "u"
          ⟨true, true, true, true, true, true, false, true⟩).2.2
        "u" ⟨true, true, true, true, true, true, true, true⟩).2.1 := by
  decide

/-- The retry loop makes at most `fuel` calls to the operation. -/
theorem retryGo_calls_le (res : ℕ → Option String) (m : ℕ) :
    ∀ fuel a e, (Cli.retryGo res m e a fuel).2.1 ≤ fuel := by
  intro fuel
  induction fuel with
  | zero => intro a e; simp [Cli.retryGo]
  | succ f ih =>
    intro a e
    cases h : res a with
    | none => simp [Cli.retryGo, h]
    | some e' =>
      by_cases hf : f = 0
      · simp [Cli.retryGo, h, hf]
      · have := ih (a + 1) e'
        simp [Cli.retryGo, h, hf]
        omega

/-- If the first success among the remaining attempts is at attempt `k`,
the retry loop returns nil after exactly `k + 1 - a` calls. -/
theorem retryGo_first_success (res : ℕ → Option String) (m : ℕ) :
    ∀ fuel a e k, a + fuel = m + 1 → a ≤ k → k ≤ m → res k = none →
      (∀ j, a ≤ j → j < k → res j ≠ none) →
      (Cli.retryGo res m e a fuel).1 = none ∧
        (Cli.retryGo res m e a fuel).2.1 = k + 1 - a := by
  intro fuel
  induction fuel with
  | zero => intro a e k hfa hak hkm _ _; omega
  | succ f ih =>
    intro a e k hfa hak hkm hk hall
    cases h : res a with
    | none =>
      have hka : k = a := by
        by_contra hne
        exact hall a le_rfl (by omega) h
      subst hka
      simp [Cli.retryGo, h]
    | some e' =>
      have hak' : a < k := by
        rcases Nat.eq_or_lt_of_le hak with rfl | hlt
        · rw [h] at hk; exact absurd hk (by simp)
        · exact hlt
      have hf : f ≠ 0 := by omega
      obtain ⟨h1', h2'⟩ := ih (a + 1) e' k (by omega) (by omega) hkm hk
        (fun j h1 h2 => hall j (by omega) h2)
      simp [Cli.retryGo, h, hf]
      exact ⟨h1', by omega⟩

/-- If every remaining attempt fails, the retry loop wraps the last
failure and uses up all its attempts. -/
theorem retryGo_exhaust (res : ℕ → Option String) (m : ℕ) :
    ∀ fuel a e0 e, a + fuel = m + 1 → 1 ≤ fuel →
      (∀ j, a ≤ j → j ≤ m → res j ≠ none) → res m = some e →
      (Cli.retryGo res m e0 a fuel).1 = some (Cli.wrapRetryError m e) ∧
        (Cli.retryGo res m e0 a fuel).2.1 = fuel := by
  intro fuel
  induction fuel with
  | zero => intro a e0 e _ h1 _ _; omega
  | succ f ih =>
    intro a e0 e hfa _ hall hm
    cases h : res a with
    | none => exact absurd h (hall a le_rfl (by omega))
    | some e' =>
      by_cases hf : f = 0
      · have ham : a = m := by omega
        have : e' = e := by
          rw [ham, hm] at h
          exact (Option.some.injEq _ _ ▸ h).symm
        subst this
        simp [Cli.retryGo, h, hf]
      · obtain ⟨h1', h2'⟩ := ih (a + 1) e' e (by omega) (by omega)
          (fun j h1 h2 => hall j (by omega) h2) hm
        simp [Cli.retryGo, h, hf]
        exact ⟨h1', by omega⟩

/-- The backoffs slept by the retry loop double from one attempt to the
next, and start at `2^a` seconds when any are taken. -/
theorem retryGo_backoffs_double (res : ℕ → Option String) (m : ℕ) :
    ∀ fuel a e, List.Chain' (fun x y => y = 2 * x) (Cli.retryGo res m e a fuel).2.2 ∧
      ((Cli.retryGo res m e a fuel).2.2 ≠ [] →
        (Cli.retryGo res m e a fuel).2.2.head? = some (2 ^ a)) := by
  intro fuel
  induction fuel with
  | zero => intro a e; simp [Cli.retryGo]
  | succ f ih =>
    intro a e
    cases h : res a with
    | none => simp [Cli.retryGo, h]
    | some e' =>
      by_cases hf : f = 0
      · simp [Cli.retryGo, h, hf]
      · have ihh := ih (a + 1) e'
        simp only [Cli.retryGo, h, hf, if_false]
        constructor
        · rw [List.chain'_cons']
          refine ⟨?_, ihh.1⟩
          intro b hb
          cases hrec : (Cli.retryGo res m e' (a + 1) f).2.2 with
          | nil => rw [hrec] at hb; simp at hb
          | cons x xs =>
            have := ihh.2 (by rw [hrec]; simp)
            rw [hrec] at this hb
            simp at this hb
            rw [← hb, this]
            ring
        · intro _
          simp

/-- Each admitted profile in the batch loop is attempted, whatever the
send results are. -/
theorem runBatch_attempts_all (gate : ℕ → Option Bool) (send : ℕ → Bool) :
    ∀ profiles : List ℕ, (∀ q ∈ profiles, gate q = some true) →
      (Cli.runBatch gate send profiles).1 = profiles.length := by
  intro profiles
  induction profiles with
  | nil => intro _; rfl
  | cons q rest ih =>
    intro h
    have hq : gate q = some true := h q (List.mem_cons_self q rest)
    have hr : (Cli.runBatch gate send rest).1 = rest.length :=
      ih (fun x hx => h x (List.mem_cons_of_mem q hx))
    by_cases hsend : send q = true <;> simp [Cli.runBatch, hq, hsend, hr]

/-- Claim C8: for every operation and `maxRetries ≥ 1`, the retry wrapper
invokes the operation at most `maxRetries` times, returns nil the first
time the operation succeeds, returns an error wrapping the last failure
after exhausting all attempts, sleeps backoffs that double between
attempts, and a single target's exhausted-retries failure does not abort
the batch — every admitted profile in the cycle's loop is attempted. -/
theorem retryWithBackoff_spec (res : ℕ → Option String) (maxRetries : ℕ)
    (hm : 1 ≤ maxRetries) :
    (Cli.retryWithBackoff res maxRetries).2.1 ≤ maxRetries ∧
    (∀ k, 1 ≤ k → k ≤ maxRetries → res k = none →
      (∀ j, 1 ≤ j → j < k → res j ≠ none) →
      (Cli.retryWithBackoff res maxRetries).1 = none ∧
        (Cli.retryWithBackoff res maxRetries).2.1 = k) ∧
    (∀ e, (∀ j, 1 ≤ j → j ≤ maxRetries → res j ≠ none) →
      res maxRetries = some e →
      (Cli.retryWithBackoff res maxRetries).1 =
        some (Cli.wrapRetryError maxRetries e) ∧
        (Cli.retryWithBackoff res maxRetries).2.1 = maxRetries) ∧
    List.Chain' (fun x y => y = 2 * x) (Cli.retryWithBackoff res maxRetries).2.2 ∧
    (∀ (gate : ℕ → Option Bool) (send : ℕ → Bool) (profiles : List ℕ),
      (∀ q ∈ profiles, gate q = some true) →
      (Cli.runBatch gate send profiles).1 = profiles.length) := by
  refine ⟨retryGo_calls_le res maxRetries maxRetries 1 "", ?_, ?_, ?_, ?_⟩
  · intro k h1 h2 hk hall
    obtain ⟨ha, hb⟩ := retryGo_first_success res maxRetries maxRetries 1 "" k (by omega) h1
      (by omega) hk (fun j hj1 hj2 => hall j hj1 hj2)
    refine ⟨ha, ?_⟩
    simp only [Cli.retryWithBackoff]
    omega
  · intro e hall hme
    exact retryGo_exhaust res maxRetries maxRetries 1 "" e (by omega) hm
      (fun j hj1 hj2 => hall j hj1 (by omega)) hme
  · exact (retryGo_backoffs_double res maxRetries maxRetries 1 "").1
  · exact fun g snd profiles h => runBatch_attempts_all g snd profiles h

theorem retryWithBackoff_witness :
    (Cli.retryWithBackoff (fun _ => some "boom") 2).1 =
      some (Cli.wrapRetryError 2 "boom") ∧
    (Cli.retryWithBackoff (fun _ => some "boom") 2).2.1 = 2 :=
  (retryWithBackoff_spec (fun _ => some "boom") 2 (by decide)).2.2.1 "boom"
    (fun _ _ _ => by simp) rfl

end LinkedIn
